import Mathlib

/-!
# Verification of `split_calculator.py` (gpu-split-stats)

Shallow embedding of `src/split_calculator.py`: the GPX loader
(`prepare_gpx_dataframe`) and the split resampler (`compute_splits`).

Modelling conventions:
* pandas numeric columns are `List ℚ` (exact decimal arithmetic); the one
  place where a non-finite float can arise (the pace division) is modelled
  by `PFloat`, rationals extended with infinities and NaN;
* Python exceptions raised by the code become `Except PyError` values;
* the in-place column assignment `df['distance_unit'] = ...` is modelled by
  explicit state passing: `compute_splits` returns the (possibly mutated)
  frame next to its result;
* the two `while` loops (marker generation, `bisect_left`) are rendered with
  an explicit fuel argument large enough to cover every iteration of the
  Python loop; the fuel values are justified by the lemmas below.
-/

namespace SplitCalculator

/-- Python float values as produced by pandas arithmetic: finite values
(kept exact as rationals), the two infinities, and NaN. -/
inductive PFloat where
  | fin : ℚ → PFloat
  | pinf : PFloat
  | ninf : PFloat
  | nan : PFloat
deriving DecidableEq

/-- The Python exceptions that the source can raise (`ValueError` from the
config validation and from `int(nan)`, `OverflowError` from `int(inf)`,
`KeyError`/`IndexError` from pandas indexing).  `parseError` is the
structured loader error postulated by the spec; the source never raises
it, the constructor exists only so that the spec claim about it can be
stated. -/
inductive PyError where
  | valueError : String → PyError
  | overflowError : String → PyError
  | keyError : String → PyError
  | indexError : String → PyError
  | parseError : String → PyError
deriving DecidableEq

/-- Round to the nearest integer, ties to even: the tie-breaking rule of
Python `round`. -/
def roundHalfEven (x : ℚ) : ℤ :=
  let f := Int.floor x
  let frac := x - f
  if frac < 1/2 then f
  else if 1/2 < frac then f + 1
  else if f % 2 = 0 then f else f + 1

/-- Python `round(x, 2)`. -/
def round2 (x : ℚ) : ℚ := (roundHalfEven (x * 100) : ℚ) / 100

/-- `x` is an exact multiple of `1/100`; every allow-listed step is, which
is why the rounding at `split_markers.append(round(current, 2))` never
changes a marker under exact decimal arithmetic. -/
def IsCenti (x : ℚ) : Prop := ∃ n : ℤ, x * 100 = (n : ℚ)

/-- pandas division of two finite floats: a zero divisor silently produces
`inf` / `-inf` / `nan` instead of raising. -/
def pandasDiv (a b : ℚ) : PFloat :=
  if b = 0 then (if 0 < a then .pinf else if a < 0 then .ninf else .nan)
  else .fin (a / b)

/-- `Series.round(2)` keeps non-finite values unchanged. -/
def PFloat.round2P : PFloat → PFloat
  | .fin q => .fin (round2 q)
  | x => x

/-- Python `x < c` for a float `x` and a finite literal `c` (`False` for
NaN and `+inf`, `True` for `-inf`). -/
def PFloat.ltc (x : PFloat) (c : ℚ) : Bool :=
  match x with
  | .fin q => decide (q < c)
  | .pinf => false
  | .ninf => true
  | .nan => false

/-- Python `int(x)`: truncation toward zero for finite floats,
`OverflowError` on the infinities, `ValueError` on NaN. -/
def PFloat.toInt : PFloat → Except PyError ℤ
  | .fin q => .ok (if 0 ≤ q then Int.floor q else Int.ceil q)
  | .pinf => .error (.overflowError "cannot convert float infinity to integer")
  | .ninf => .error (.overflowError "cannot convert float infinity to integer")
  | .nan => .error (.valueError "cannot convert float NaN to integer")

/-- Zero-pad an integer to two digits. -/
def pad2 (n : ℤ) : String := if n < 10 then "0" ++ toString n else toString n

/-- `str(datetime.timedelta(seconds=n))` for an integer `n`:
`H:MM:SS` with unpadded hours, prefixed with a day count when `n` is at
least a day (Python normalises the remainder to `[0, 86400)`). -/
def timedeltaStr (n : ℤ) : String :=
  let d := Int.ediv n 86400
  let r := Int.emod n 86400
  let h := Int.ediv r 3600
  let m := Int.ediv (Int.emod r 3600) 60
  let s := Int.emod r 60
  let base := toString h ++ ":" ++ pad2 m ++ ":" ++ pad2 s
  if d = 0 then base
  else toString d ++ (if d = 1 ∨ d = -1 then " day, " else " days, ") ++ base

/-- Python `str.rjust(8, "0")`. -/
def rjust8 (s : String) : String :=
  if s.length < 8 then String.mk (List.replicate (8 - s.length) '0') ++ s
  else s

/-- The `MM:SS` lambda of lines 157-160 / 178-181: format the timedelta and
drop the leading `H:` below one hour, keep the full string otherwise.
`int(x)` on a non-finite value raises, exactly as in pandas `apply`. -/
def paceMmss (x : PFloat) : Except PyError String := do
  let n ← x.toInt
  pure (if x.ltc 3600 then (timedeltaStr n).drop 2 else timedeltaStr n)

/-- The `HH:MM:SS` lambda of lines 161-163 / 182-184. -/
def paceHhmmss (x : PFloat) : Except PyError String := do
  let n ← x.toInt
  pure (rjust8 (timedeltaStr n))

/-- pandas `Series.apply` with a lambda that can raise: the first exception
aborts the whole computation. -/
def mapExcept {α β : Type} (f : α → Except PyError β) : List α → Except PyError (List β)
  | [] => .ok []
  | x :: xs =>
    match f x with
    | .error e => .error e
    | .ok y =>
      match mapExcept f xs with
      | .error e => .error e
      | .ok ys => .ok (y :: ys)

/-- `series.diff().fillna(series)` (lines 153-154) and the split-distance
construction of lines 166-170: keep the first element, replace the rest by
consecutive differences. -/
def diffWithFirst (l : List ℚ) : List ℚ :=
  match l with
  | [] => []
  | x :: xs => x :: List.zipWith (fun a b => a - b) xs (x :: xs)

/-- The module constant `ALLOWED_STEPS` (lines 8-12), as an association
list.  Note `mi` is the literal list from the source, which is sparser
than the 0.25-increment progression promised by the docstring. -/
def ALLOWED_STEPS : List (String × List ℚ) :=
  [("meters", [100, 200, 400, 600, 800, 1000, 1200, 1600, 2000, 3200, 5000, 10000]),
   ("km", [1, 2, 5, 10, 20]),
   ("mi", [1/4, 1/2, 1, 2, 3, 4, 5, 10, 131/10])]

/-- The module constant `UNIT_CONVERSIONS` (lines 14-18); `1609.34` is the
source's fixed approximate metres-per-mile constant. -/
def UNIT_CONVERSIONS : List (String × ℚ) :=
  [("meters", 1), ("km", 1000), ("mi", 160934/100)]

/-- `ALLOWED_STEPS[unit]`, with `[]` for an unsupported unit. -/
def allowedFor (unit : String) : List ℚ := (ALLOWED_STEPS.lookup unit).getD []

/-- `UNIT_CONVERSIONS[unit]`, with divisor `1` for an unsupported unit
(never reached after validation). -/
def convFor (unit : String) : ℚ := (UNIT_CONVERSIONS.lookup unit).getD 1

/-- Body of the marker loop of lines 123-127
(`while current < max: append(round(current, 2)); current += step`),
with an explicit fuel bounding the number of iterations. -/
def genMarkersAux (step maxD : ℚ) : ℕ → ℚ → List ℚ
  | 0, _ => []
  | fuel + 1, current =>
    if current < maxD then round2 current :: genMarkersAux step maxD fuel (current + step)
    else []

/-- The generated split markers.  For a positive step the Python loop runs
at most `⌈maxD / step⌉` times, so that fuel is enough; for a non-positive
step the Python loop would never terminate, which validation rules out. -/
def genMarkers (step maxD : ℚ) : List ℚ :=
  if 0 < step then genMarkersAux step maxD ((Int.ceil (maxD / step)).toNat + 1) step
  else []

/-- `bisect.bisect_left` on a list, fuel-based rendering of the binary
search `while lo < hi: mid = (lo+hi)//2; a[mid] < x → lo = mid+1 else hi = mid`.
Each iteration shrinks `hi - lo`, so fuel `a.length` covers the search. -/
def bisectLeftAux (a : List ℚ) (x : ℚ) : ℕ → ℕ → ℕ → ℕ
  | 0, lo, _ => lo
  | fuel + 1, lo, hi =>
    if lo < hi then
      if a.getD ((lo + hi) / 2) 0 < x then bisectLeftAux a x fuel ((lo + hi) / 2 + 1) hi
      else bisectLeftAux a x fuel lo ((lo + hi) / 2)
    else lo

/-- `bisect_left(a, x)` over the whole list. -/
def bisect_left (a : List ℚ) (x : ℚ) : ℕ := bisectLeftAux a x a.length 0 a.length

/-- One row of the DataFrame produced by `prepare_gpx_dataframe`. -/
structure DfRow where
  time : ℚ
  latitude : ℚ
  longitude : ℚ
  elevation : Option ℚ
  segment_meters : ℚ
  cumulative_meters : ℚ
  elapsed_time : ℚ
deriving DecidableEq

/-- The DataFrame handed to `compute_splits`: its rows plus the
`distance_unit` column, which is absent (`none`) until `compute_splits`
assigns it in place at line 119. -/
structure GpsFrame where
  rows : List DfRow
  distance_unit : Option (List ℚ)
deriving DecidableEq

/-- One entry of `split_data` (marker plus elapsed time, lines 136-139). -/
structure SplitRow where
  marker : ℚ
  elapsed_time_sec : ℚ
deriving DecidableEq

/-- One row of the DataFrame returned by `compute_splits`
(`<unit>_split` is called `marker` here). -/
structure SplitRecord where
  marker : ℚ
  elapsed_time_sec : ℚ
  split_time_sec : ℚ
  split_pace_mmss : String
  split_pace_hhmmss : String
  split_distance : ℚ
  pace_seconds : PFloat
  pace_mmss : String
  pace_hhmmss : String
  pace : String
deriving DecidableEq

/-- The converted-distance column `df['cumulative_meters'] / UNIT_CONVERSIONS[unit]`. -/
def dcolOf (df : GpsFrame) (unit : String) : List ℚ :=
  df.rows.map (fun r => r.cumulative_meters / convFor unit)

/-- The `elapsed_time` column. -/
def elapsedColOf (df : GpsFrame) : List ℚ := df.rows.map (·.elapsed_time)

/-- The `cumulative_meters` column. -/
def cumColOf (df : GpsFrame) : List ℚ := df.rows.map (·.cumulative_meters)

/-- Lines 131-139: for each marker, bisect into the converted-distance
column and keep a record unless the marker falls at or before the first
point or beyond the data. -/
def splitRowsOfMarkers (elapsedCol dcol : List ℚ) (markers : List ℚ) : List SplitRow :=
  markers.filterMap (fun marker =>
    let idx := bisect_left dcol marker
    if idx = 0 ∨ dcol.length ≤ idx then none
    else some { marker := marker, elapsed_time_sec := elapsedCol.getD idx 0 })

/-- The condition of line 145:
`if not split_markers or final_distance > split_markers[-1]`. -/
def appendFinalB (markers : List ℚ) (finalDistance : ℚ) : Bool :=
  match markers.getLast? with
  | none => true
  | some lastM => decide (lastM < finalDistance)

/-- Lines 141-149: append the final (possibly partial) record when the
condition of line 145 holds. -/
def withFinal (markers : List ℚ) (finalDistance finalTime : ℚ)
    (data : List SplitRow) : List SplitRow :=
  if appendFinalB markers finalDistance then
    data ++ [{ marker := finalDistance, elapsed_time_sec := finalTime }]
  else data

/-- Lines 151-188: build the output DataFrame from `split_data`.
`pd.DataFrame([])` has no columns, so line 153 raises `KeyError` on an
empty `split_data`; the pace-formatting `apply` raises when `int` meets a
non-finite pace (a zero-length split). -/
def assembleRecords (data : List SplitRow) : Except PyError (List SplitRecord) :=
  if data = [] then .error (.keyError "elapsed_time_sec")
  else
    let elist := data.map (·.elapsed_time_sec)
    let mlist := data.map (·.marker)
    let times := diffWithFirst elist
    match mapExcept (fun t => paceMmss (.fin t)) times with
    | .error e => .error e
    | .ok splitPaceM =>
      match mapExcept (fun t => paceHhmmss (.fin t)) times with
      | .error e => .error e
      | .ok splitPaceH =>
        let dists := diffWithFirst mlist
        let paces := List.zipWith (fun t d => (pandasDiv t d).round2P) times dists
        match mapExcept paceMmss paces with
        | .error e => .error e
        | .ok paceM =>
          match mapExcept paceHhmmss paces with
          | .error e => .error e
          | .ok paceH =>
            .ok ((List.range data.length).map (fun i =>
              { marker := mlist.getD i 0
                elapsed_time_sec := elist.getD i 0
                split_time_sec := times.getD i 0
                split_pace_mmss := splitPaceM.getD i ""
                split_pace_hhmmss := splitPaceH.getD i ""
                split_distance := dists.getD i 0
                pace_seconds := paces.getD i (.fin 0)
                pace_mmss := paceM.getD i ""
                pace_hhmmss := paceH.getD i ""
                pace := paceM.getD i "" }))

/-- `compute_splits` (lines 76-188).  Validates the configuration (raising
`ValueError` with the frame untouched), assigns the `distance_unit` column
in place, reads the total converted distance (`IndexError` on an empty
frame), generates and bisects the markers, appends the final record, and
assembles the output records.  The Python error messages quote the
offending value and the permitted set; the messages here keep only their
fixed prefix. -/
def compute_splits (df : GpsFrame) (unit : String) (step : ℚ) :
    GpsFrame × Except PyError (List SplitRecord) :=
  match ALLOWED_STEPS.lookup unit with
  | none =>
    (df, .error (.valueError ("Invalid unit " ++ unit ++ ". Must be one of [meters, km, mi].")))
  | some allowed =>
    if step ∈ allowed then
      let dcol := dcolOf df unit
      let df2 : GpsFrame := { df with distance_unit := some dcol }
      match dcol.getLast? with
      | none => (df2, .error (.indexError "single positional indexer is out-of-bounds"))
      | some maxUnitDistance =>
        let markers := genMarkers step maxUnitDistance
        let data := splitRowsOfMarkers (elapsedColOf df) dcol markers
        let finalDistance := round2 maxUnitDistance
        let finalTime := (elapsedColOf df).getLast?.getD 0
        (df2, assembleRecords (withFinal markers finalDistance finalTime data))
    else
      (df, .error (.valueError ("Step value not allowed for unit " ++ unit ++ ".")))

/-! ## Spec-worded variant of the marker rounding (for the rounding claim)

The source rounds each marker as it is appended (line 126) and then uses
that stored value both for the bisect search and for the final-record
comparison.  The spec instead words the algorithm as: markers stay exact
during generation and search, and rounding happens only when the value is
stored as the record's distance marker.  The variant below follows the
spec's words; the two are proved equal for every configuration. -/

/-- The marker loop with no rounding on append (spec wording). -/
def genMarkersNoRoundAux (step maxD : ℚ) : ℕ → ℚ → List ℚ
  | 0, _ => []
  | fuel + 1, current =>
    if current < maxD then current :: genMarkersNoRoundAux step maxD fuel (current + step)
    else []

/-- The unrounded split markers (spec wording). -/
def genMarkersNoRound (step maxD : ℚ) : List ℚ :=
  if 0 < step then genMarkersNoRoundAux step maxD ((Int.ceil (maxD / step)).toNat + 1) step
  else []

/-- Modelled from the spec: search with the exact marker, store it rounded. -/
def splitRowsOfMarkersSpec (elapsedCol dcol : List ℚ) (markers : List ℚ) : List SplitRow :=
  markers.filterMap (fun marker =>
    let idx := bisect_left dcol marker
    if idx = 0 ∨ dcol.length ≤ idx then none
    else some { marker := round2 marker, elapsed_time_sec := elapsedCol.getD idx 0 })

/-- Modelled from the spec (§4.2): `compute_splits` as the spec words it —
candidate markers are used unrounded for the bisect search and for the
final-record comparison, and rounding to 2 decimals happens only on the
stored distance marker. -/
def compute_splits_specRounding (df : GpsFrame) (unit : String) (step : ℚ) :
    GpsFrame × Except PyError (List SplitRecord) :=
  match ALLOWED_STEPS.lookup unit with
  | none =>
    (df, .error (.valueError ("Invalid unit " ++ unit ++ ". Must be one of [meters, km, mi].")))
  | some allowed =>
    if step ∈ allowed then
      let dcol := dcolOf df unit
      let df2 : GpsFrame := { df with distance_unit := some dcol }
      match dcol.getLast? with
      | none => (df2, .error (.indexError "single positional indexer is out-of-bounds"))
      | some maxUnitDistance =>
        let markers := genMarkersNoRound step maxUnitDistance
        let data := splitRowsOfMarkersSpec (elapsedColOf df) dcol markers
        let finalDistance := round2 maxUnitDistance
        let finalTime := (elapsedColOf df).getLast?.getD 0
        (df2, assembleRecords (withFinal markers finalDistance finalTime data))
    else
      (df, .error (.valueError ("Step value not allowed for unit " ++ unit ++ ".")))

/-! ## The GPX loader -/

/-- A raw GPX point as surfaced by gpxpy (time modelled as rational
seconds on some absolute axis). -/
structure GpxPoint where
  time : ℚ
  latitude : ℚ
  longitude : ℚ
  elevation : Option ℚ
deriving DecidableEq

/-- A GPX track segment. -/
structure GpxSegment where
  points : List GpxPoint
deriving DecidableEq

/-- A GPX track with its name. -/
structure GpxTrack where
  name : String
  segments : List GpxSegment
deriving DecidableEq

/-- A parsed GPX document. -/
structure Gpx where
  tracks : List GpxTrack
deriving DecidableEq

/-- Lines 46-56: flatten every track and segment into one point list,
in iteration order. -/
def flattenPoints (g : Gpx) : List GpxPoint :=
  (g.tracks.map (fun t => (t.segments.map (·.points)).flatten)).flatten

/-- Line 48 runs once per track, so the last track's name wins
(the documented title quirk). -/
def lastTitle (g : Gpx) : String := g.tracks.foldl (fun _ t => t.name) ""

/-- `Series.cumsum()`. -/
def cumsum (l : List ℚ) : List ℚ := (l.scanl (· + ·) 0).drop 1

/-- `prepare_gpx_dataframe` (lines 21-73) from the parsed GPX document on:
flatten, sort by time, per-point geodesic segment distance, cumulative
distance, elapsed time.  The geodesic distance function is a parameter
(geopy is external).  With zero points, `pd.DataFrame([])` has no columns
and line 59 `df['time']` raises `KeyError` — there is no structured
`ParseError` anywhere in the source. -/
def prepare_gpx_dataframe (geodesicM : ℚ × ℚ → ℚ × ℚ → ℚ) (gpx : Gpx) :
    Except PyError (GpsFrame × String) :=
  let points := flattenPoints gpx
  match points with
  | [] => .error (.keyError "time")
  | p0 :: _ =>
    let sorted := points.mergeSort (fun p q => decide (p.time ≤ q.time))
    let segs := 0 :: List.zipWith
      (fun prev curr => geodesicM (prev.latitude, prev.longitude) (curr.latitude, curr.longitude))
      sorted (sorted.drop 1)
    let cums := cumsum segs
    let t0 := (sorted.headD p0).time
    let rows := List.zipWith (fun (pc : GpxPoint × ℚ) c =>
      { time := pc.1.time
        latitude := pc.1.latitude
        longitude := pc.1.longitude
        elevation := pc.1.elevation
        segment_meters := pc.2
        cumulative_meters := c
        elapsed_time := pc.1.time - t0 : DfRow }) (sorted.zip segs) cums
    .ok ({ rows := rows, distance_unit := none }, lastTitle gpx)

/-! ## Concrete inputs used by the witnesses and counterexamples -/

/-- A data row with the given cumulative distance and elapsed time. -/
def sampleRow (c e : ℚ) : DfRow :=
  { time := e, latitude := 0, longitude := 0, elevation := none,
    segment_meters := 0, cumulative_meters := c, elapsed_time := e }

/-- A well-behaved 1 km track sampled at 0, 500 and 1000 m. -/
def frameA : GpsFrame :=
  { rows := [sampleRow 0 0, sampleRow 500 240, sampleRow 1000 500], distance_unit := none }

/-- The records `compute_splits` produces on `frameA` with meters/400. -/
def frameARecords : List SplitRecord :=
  ((compute_splits frameA "meters" 400).2.toOption).getD []

/-- A degenerate 4 mm track: its total converted distance rounds to 0.00,
so the single final record has split distance zero. -/
def frameZero : GpsFrame :=
  { rows := [sampleRow 0 0, sampleRow (1/250) 60], distance_unit := none }

/-- The 4 mm track with zero elapsed time: the pace division is 0/0,
pandas yields NaN and the formatting `int(nan)` raises `ValueError`. -/
def frameZeroNan : GpsFrame :=
  { rows := [sampleRow 0 0, sampleRow (1/250) 0], distance_unit := none }

/-- A 3 km track sampled at 0, 1500 and 3000 m (total exactly 3 steps of
1 km). -/
def frameThree : GpsFrame :=
  { rows := [sampleRow 0 0, sampleRow 1500 300, sampleRow 3000 620], distance_unit := none }

/-- The records `compute_splits` produces on `frameThree` with km/1. -/
def frameThreeRecords : List SplitRecord :=
  ((compute_splits frameThree "km" 1).2.toOption).getD []

/-- The default record used to read `getLast?` results in closed statements. -/
def defaultRecord : SplitRecord :=
  { marker := 0, elapsed_time_sec := 0, split_time_sec := 0, split_pace_mmss := "",
    split_pace_hhmmss := "", split_distance := 0, pace_seconds := .fin 0,
    pace_mmss := "", pace_hhmmss := "", pace := "" }

/-- A GPX document with one track and no points. -/
def gpxEmpty : Gpx := { tracks := [{ name := "empty", segments := [{ points := [] }] }] }

/-- A trivial geodesic function for closed statements about the loader. -/
def geoZero : ℚ × ℚ → ℚ × ℚ → ℚ := fun _ _ => 0

/-! ## Rounding lemmas -/

theorem round2_eq_self {x : ℚ} (h : IsCenti x) : round2 x = x := by
  obtain ⟨n, hn⟩ := h
  have hfl : roundHalfEven (x * 100) = n := by
    unfold roundHalfEven
    rw [hn]
    simp [Int.floor_intCast]
  rw [round2, hfl]
  have h100 : (100 : ℚ) ≠ 0 := by norm_num
  field_simp
  linarith [hn]

theorem IsCenti.add {x y : ℚ} (hx : IsCenti x) (hy : IsCenti y) :
    IsCenti (x + y) := by
  obtain ⟨n, hn⟩ := hx
  obtain ⟨m, hm⟩ := hy
  exact ⟨n + m, by push_cast; rw [add_mul, hn, hm]⟩

/-! ## List helper lemmas -/

theorem getD_range_map {α : Type} (l : List α) (d : α) :
    (List.range l.length).map (fun i => l.getD i d) = l := by
  induction l with
  | nil => simp
  | cons x xs ih =>
    rw [List.length_cons, List.range_succ_eq_map, List.map_cons, List.map_map]
    have hfun : ((fun i => (x :: xs).getD i d) ∘ Nat.succ) = (fun i => xs.getD i d) := rfl
    rw [hfun]
    simpa using ih

theorem getD_range_map' {α : Type} (l : List α) (d : α) (n : ℕ) (h : l.length = n) :
    (List.range n).map (fun i => l.getD i d) = l := by
  subst h; exact getD_range_map l d

theorem diffWithFirst_length (l : List ℚ) : (diffWithFirst l).length = l.length := by
  cases l with
  | nil => rfl
  | cons x xs => simp [diffWithFirst]

theorem sum_zip_sub (xs : List ℚ) (x : ℚ) :
    x + (List.zipWith (fun a b => a - b) xs (x :: xs)).sum = (x :: xs).getLast?.getD 0 := by
  induction xs generalizing x with
  | nil => simp
  | cons y ys ih =>
    have := ih y
    rw [List.zipWith_cons_cons, List.sum_cons]
    rw [List.getLast?_cons_cons]
    rw [← this]
    ring

theorem sum_diffWithFirst (l : List ℚ) : (diffWithFirst l).sum = l.getLast?.getD 0 := by
  cases l with
  | nil => simp [diffWithFirst]
  | cons x xs =>
    rw [diffWithFirst, List.sum_cons]
    exact sum_zip_sub xs x

theorem mapExcept_ok_length {α β : Type} (f : α → Except PyError β) (l : List α)
    (ys : List β) (h : mapExcept f l = .ok ys) : ys.length = l.length := by
  induction l generalizing ys with
  | nil => simp [mapExcept] at h; simp [← h]
  | cons x xs ih =>
    rw [mapExcept] at h
    cases hfx : f x with
    | error e => rw [hfx] at h; cases h
    | ok y =>
      rw [hfx] at h
      cases hrec : mapExcept f xs with
      | error e => rw [hrec] at h; cases h
      | ok ys' =>
        rw [hrec] at h
        cases h
        simp [ih ys' hrec]

theorem mapExcept_ok_forall {α β : Type} (f : α → Except PyError β) (l : List α)
    (ys : List β) (h : mapExcept f l = .ok ys) : ∀ x ∈ l, ∃ y, f x = .ok y := by
  induction l generalizing ys with
  | nil => simp
  | cons a xs ih =>
    rw [mapExcept] at h
    cases hfx : f a with
    | error e => rw [hfx] at h; cases h
    | ok y =>
      rw [hfx] at h
      cases hrec : mapExcept f xs with
      | error e => rw [hrec] at h; cases h
      | ok ys' =>
        intro x hx
        rcases List.mem_cons.mp hx with rfl | hx'
        · exact ⟨y, hfx⟩
        · exact ih ys' hrec x hx'

theorem mapExcept_ok_of_forall {α β : Type} (f : α → Except PyError β) (l : List α)
    (h : ∀ x ∈ l, ∃ y, f x = .ok y) : ∃ ys, mapExcept f l = .ok ys := by
  induction l with
  | nil => exact ⟨[], rfl⟩
  | cons a xs ih =>
    obtain ⟨y, hy⟩ := h a (List.mem_cons_self a xs)
    obtain ⟨ys, hys⟩ := ih (fun x hx => h x (List.mem_cons_of_mem a hx))
    exact ⟨y :: ys, by rw [mapExcept, hy, hys]⟩

theorem mem_zipWith_pair {α β γ : Type} (f : α → β → γ) (l1 : List α) (l2 : List β) :
    ∀ x ∈ List.zipWith f l1 l2, ∃ a ∈ l1, ∃ b ∈ l2, x = f a b := by
  induction l1 generalizing l2 with
  | nil => simp
  | cons a as ih =>
    cases l2 with
    | nil => simp
    | cons b bs =>
      intro x hx
      rw [List.zipWith_cons_cons] at hx
      rcases List.mem_cons.mp hx with rfl | hx'
      · exact ⟨a, by simp, b, by simp, rfl⟩
      · obtain ⟨a', ha', b', hb', rfl⟩ := ih bs x hx'
        exact ⟨a', by simp [ha'], b', by simp [hb'], rfl⟩

theorem mapExcept_error {α β : Type} (f : α → Except PyError β) (l : List α)
    (e : PyError) (h : mapExcept f l = .error e) : ∃ x ∈ l, f x = .error e := by
  induction l with
  | nil => simp [mapExcept] at h
  | cons a xs ih =>
    rw [mapExcept] at h
    cases hfx : f a with
    | error e' =>
      rw [hfx] at h
      cases h
      exact ⟨a, List.mem_cons_self a xs, hfx⟩
    | ok y =>
      rw [hfx] at h
      cases hrec : mapExcept f xs with
      | error e' =>
        rw [hrec] at h
        cases h
        obtain ⟨x, hx, hfe⟩ := ih hrec
        exact ⟨x, List.mem_cons_of_mem a hx, hfe⟩
      | ok ys' => rw [hrec] at h; cases h

/-! ## Pace-formatting lemmas -/

theorem paceMmss_fin_ok (q : ℚ) : ∃ s, paceMmss (.fin q) = .ok s := ⟨_, rfl⟩

theorem paceHhmmss_fin_ok (q : ℚ) : ∃ s, paceHhmmss (.fin q) = .ok s := ⟨_, rfl⟩

theorem paceMmss_ok_fin (x : PFloat) (s : String) (h : paceMmss x = .ok s) :
    ∃ q, x = .fin q := by
  cases x with
  | fin q => exact ⟨q, rfl⟩
  | pinf => cases h
  | ninf => cases h
  | nan => cases h

theorem paceMmss_error_classify (x : PFloat) (e : PyError) (h : paceMmss x = .error e) :
    e = .overflowError "cannot convert float infinity to integer" ∨
    e = .valueError "cannot convert float NaN to integer" := by
  cases x with
  | fin q => cases h
  | pinf => cases h; left; rfl
  | ninf => cases h; left; rfl
  | nan => cases h; right; rfl

theorem paceHhmmss_error_classify (x : PFloat) (e : PyError) (h : paceHhmmss x = .error e) :
    e = .overflowError "cannot convert float infinity to integer" ∨
    e = .valueError "cannot convert float NaN to integer" := by
  cases x with
  | fin q => cases h
  | pinf => cases h; left; rfl
  | ninf => cases h; left; rfl
  | nan => cases h; right; rfl

theorem pandasDiv_ne_fin (t : ℚ) (q : ℚ) : pandasDiv t 0 ≠ .fin q := by
  unfold pandasDiv
  rw [if_pos rfl]
  split_ifs <;> simp

theorem pandasDiv_fin {d : ℚ} (t : ℚ) (hd : d ≠ 0) : pandasDiv t d = .fin (t / d) := by
  simp [pandasDiv, hd]

theorem round2P_fin_iff (x : PFloat) : (∃ q, x.round2P = .fin q) ↔ ∃ q, x = .fin q := by
  cases x <;> simp [PFloat.round2P]

/-- In the pace column, a finite entry forces a non-zero split distance. -/
theorem zipWith_pace_fin_snd (l1 l2 : List ℚ) (hlen : l1.length = l2.length)
    (h : ∀ x ∈ List.zipWith (fun t d => (pandasDiv t d).round2P) l1 l2, ∃ q, x = .fin q) :
    ∀ d ∈ l2, d ≠ 0 := by
  induction l2 generalizing l1 with
  | nil => simp
  | cons d ds ih =>
    cases l1 with
    | nil => cases hlen
    | cons t ts =>
      intro d' hd'
      rcases List.mem_cons.mp hd' with rfl | hmem
      · intro hzero
        subst hzero
        obtain ⟨q, hq⟩ := h ((pandasDiv t 0).round2P) (by simp [List.zipWith_cons_cons])
        obtain ⟨q', hq'⟩ := (round2P_fin_iff _).mp ⟨q, hq⟩
        exact pandasDiv_ne_fin t q' hq'
      · exact ih ts (by simpa using hlen)
          (fun x hx => h x (by simp [List.zipWith_cons_cons, hx])) d' hmem

/-! ## assembleRecords lemmas -/

theorem assembleRecords_ok (data : List SplitRow) (r : List SplitRecord)
    (h : assembleRecords data = .ok r) :
    data ≠ [] ∧
    r.length = data.length ∧
    r.map (·.marker) = data.map (·.marker) ∧
    r.map (·.elapsed_time_sec) = data.map (·.elapsed_time_sec) ∧
    r.map (·.split_time_sec) = diffWithFirst (data.map (·.elapsed_time_sec)) ∧
    r.map (·.split_distance) = diffWithFirst (data.map (·.marker)) ∧
    (∀ d ∈ diffWithFirst (data.map (·.marker)), d ≠ 0) := by
  by_cases hne : data = []
  · rw [assembleRecords, if_pos hne] at h
    cases h
  · rw [assembleRecords, if_neg hne] at h
    simp only at h
    cases h1 : mapExcept (fun t => paceMmss (.fin t))
        (diffWithFirst (data.map (·.elapsed_time_sec))) with
    | error e => rw [h1] at h; cases h
    | ok splitPaceM =>
    rw [h1] at h
    cases h2 : mapExcept (fun t => paceHhmmss (.fin t))
        (diffWithFirst (data.map (·.elapsed_time_sec))) with
    | error e => rw [h2] at h; cases h
    | ok splitPaceH =>
    rw [h2] at h
    cases h3 : mapExcept paceMmss
        (List.zipWith (fun t d => (pandasDiv t d).round2P)
          (diffWithFirst (data.map (·.elapsed_time_sec)))
          (diffWithFirst (data.map (·.marker)))) with
    | error e => rw [h3] at h; cases h
    | ok paceM =>
    rw [h3] at h
    cases h4 : mapExcept paceHhmmss
        (List.zipWith (fun t d => (pandasDiv t d).round2P)
          (diffWithFirst (data.map (·.elapsed_time_sec)))
          (diffWithFirst (data.map (·.marker)))) with
    | error e => rw [h4] at h; cases h
    | ok paceH =>
    rw [h4] at h
    injection h with heq
    subst heq
    have hdist : ∀ d ∈ diffWithFirst (data.map (·.marker)), d ≠ 0 := by
      refine zipWith_pace_fin_snd (diffWithFirst (data.map (fun x => x.elapsed_time_sec)))
        (diffWithFirst (data.map (fun x => x.marker)))
        (by simp [diffWithFirst_length]) (fun x hx => ?_)
      obtain ⟨s, hs⟩ := mapExcept_ok_forall _ _ _ h3 x hx
      exact paceMmss_ok_fin x s hs
    refine ⟨hne, ?_, ?_, ?_, ?_, ?_, hdist⟩
    · simp
    · rw [List.map_map]
      exact getD_range_map' (data.map (fun x => x.marker)) 0 data.length (by simp)
    · rw [List.map_map]
      exact getD_range_map' (data.map (fun x => x.elapsed_time_sec)) 0 data.length (by simp)
    · rw [List.map_map]
      exact getD_range_map' (diffWithFirst (data.map (fun x => x.elapsed_time_sec))) 0
        data.length (by simp [diffWithFirst_length])
    · rw [List.map_map]
      exact getD_range_map' (diffWithFirst (data.map (fun x => x.marker))) 0
        data.length (by simp [diffWithFirst_length])

theorem assembleRecords_error (data : List SplitRow) (e : PyError)
    (h : assembleRecords data = .error e) :
    e = .keyError "elapsed_time_sec" ∨
    e = .overflowError "cannot convert float infinity to integer" ∨
    e = .valueError "cannot convert float NaN to integer" := by
  by_cases hne : data = []
  · rw [assembleRecords, if_pos hne] at h
    cases h
    left
    rfl
  · rw [assembleRecords, if_neg hne] at h
    simp only at h
    cases h1 : mapExcept (fun t => paceMmss (.fin t))
        (diffWithFirst (data.map (·.elapsed_time_sec))) with
    | error e1 =>
      rw [h1] at h
      cases h
      obtain ⟨t, _, ht⟩ := mapExcept_error _ _ _ h1
      exact Or.inr (paceMmss_error_classify _ _ ht)
    | ok splitPaceM =>
    rw [h1] at h
    cases h2 : mapExcept (fun t => paceHhmmss (.fin t))
        (diffWithFirst (data.map (·.elapsed_time_sec))) with
    | error e2 =>
      rw [h2] at h
      cases h
      obtain ⟨t, _, ht⟩ := mapExcept_error _ _ _ h2
      exact Or.inr (paceHhmmss_error_classify _ _ ht)
    | ok splitPaceH =>
    rw [h2] at h
    cases h3 : mapExcept paceMmss
        (List.zipWith (fun t d => (pandasDiv t d).round2P)
          (diffWithFirst (data.map (·.elapsed_time_sec)))
          (diffWithFirst (data.map (·.marker)))) with
    | error e3 =>
      rw [h3] at h
      cases h
      obtain ⟨x, _, hx⟩ := mapExcept_error _ _ _ h3
      exact Or.inr (paceMmss_error_classify _ _ hx)
    | ok paceM =>
    rw [h3] at h
    cases h4 : mapExcept paceHhmmss
        (List.zipWith (fun t d => (pandasDiv t d).round2P)
          (diffWithFirst (data.map (·.elapsed_time_sec)))
          (diffWithFirst (data.map (·.marker)))) with
    | error e4 =>
      rw [h4] at h
      cases h
      obtain ⟨x, _, hx⟩ := mapExcept_error _ _ _ h4
      exact Or.inr (paceHhmmss_error_classify _ _ hx)
    | ok paceH =>
    rw [h4] at h
    cases h

theorem assembleRecords_ok_of (data : List SplitRow) (hne : data ≠ [])
    (hd : ∀ d ∈ diffWithFirst (data.map (·.marker)), d ≠ 0) :
    ∃ r, assembleRecords data = .ok r := by
  rw [assembleRecords, if_neg hne]
  simp only
  obtain ⟨l1, hl1⟩ := mapExcept_ok_of_forall (fun t => paceMmss (.fin t))
    (diffWithFirst (data.map (·.elapsed_time_sec))) (fun t _ => paceMmss_fin_ok t)
  obtain ⟨l2, hl2⟩ := mapExcept_ok_of_forall (fun t => paceHhmmss (.fin t))
    (diffWithFirst (data.map (·.elapsed_time_sec))) (fun t _ => paceHhmmss_fin_ok t)
  have hpace : ∀ x ∈ List.zipWith (fun t d => (pandasDiv t d).round2P)
      (diffWithFirst (data.map (·.elapsed_time_sec)))
      (diffWithFirst (data.map (·.marker))), ∃ q, x = .fin q := by
    intro x hx
    obtain ⟨t, ht, d, hdm, rfl⟩ := mem_zipWith_pair _ _ _ x hx
    rw [pandasDiv_fin t (hd d hdm)]
    exact ⟨_, rfl⟩
  obtain ⟨l3, hl3⟩ := mapExcept_ok_of_forall paceMmss _ (fun x hx => by
    obtain ⟨q, rfl⟩ := hpace x hx
    exact paceMmss_fin_ok q)
  obtain ⟨l4, hl4⟩ := mapExcept_ok_of_forall paceHhmmss _ (fun x hx => by
    obtain ⟨q, rfl⟩ := hpace x hx
    exact paceHhmmss_fin_ok q)
  rw [hl1, hl2, hl3, hl4]
  exact ⟨_, rfl⟩

/-! ## Marker-generation lemmas -/

theorem genMarkersNoRoundAux_head (step maxD : ℚ) (fuel : ℕ) (c : ℚ) :
    (genMarkersNoRoundAux step maxD fuel c).head? = none ∨
    (genMarkersNoRoundAux step maxD fuel c).head? = some c := by
  cases fuel with
  | zero => left; rfl
  | succ n =>
    rw [genMarkersNoRoundAux]
    by_cases h : c < maxD
    · rw [if_pos h]; right; rfl
    · rw [if_neg h]; left; rfl

theorem genMarkersNoRoundAux_chain (step maxD : ℚ) (hs : 0 < step) :
    ∀ fuel c, List.Chain' (· < ·) (genMarkersNoRoundAux step maxD fuel c) := by
  intro fuel
  induction fuel with
  | zero => intro c; simp [genMarkersNoRoundAux]
  | succ n ih =>
    intro c
    rw [genMarkersNoRoundAux]
    by_cases h : c < maxD
    · rw [if_pos h, List.chain'_cons']
      refine ⟨fun y hy => ?_, ih (c + step)⟩
      rcases genMarkersNoRoundAux_head step maxD n (c + step) with h' | h'
      · rw [h'] at hy; cases hy
      · rw [h'] at hy
        cases hy
        linarith
    · rw [if_neg h]
      exact List.chain'_nil

theorem genMarkersNoRoundAux_mem_centi (step maxD : ℚ) (hstep : IsCenti step) :
    ∀ fuel c, IsCenti c → ∀ y ∈ genMarkersNoRoundAux step maxD fuel c, IsCenti y := by
  intro fuel
  induction fuel with
  | zero => intro c _ y hy; cases hy
  | succ n ih =>
    intro c hc y hy
    rw [genMarkersNoRoundAux] at hy
    by_cases h : c < maxD
    · rw [if_pos h] at hy
      rcases List.mem_cons.mp hy with rfl | hy'
      · exact hc
      · exact ih (c + step) (hc.add hstep) y hy'
    · rw [if_neg h] at hy; cases hy

theorem genMarkersAux_eq_noRound (step maxD : ℚ) (hstep : IsCenti step) :
    ∀ fuel c, IsCenti c →
      genMarkersAux step maxD fuel c = genMarkersNoRoundAux step maxD fuel c := by
  intro fuel
  induction fuel with
  | zero => intro c _; rfl
  | succ n ih =>
    intro c hc
    rw [genMarkersAux, genMarkersNoRoundAux]
    by_cases h : c < maxD
    · rw [if_pos h, if_pos h, round2_eq_self hc, ih (c + step) (hc.add hstep)]
    · rw [if_neg h, if_neg h]

theorem genMarkers_eq_noRound {step : ℚ} (maxD : ℚ) (hstep : IsCenti step) :
    genMarkers step maxD = genMarkersNoRound step maxD := by
  rw [genMarkers, genMarkersNoRound]
  by_cases h : 0 < step
  · rw [if_pos h, if_pos h, genMarkersAux_eq_noRound step maxD hstep _ step hstep]
  · rw [if_neg h, if_neg h]

theorem genMarkers_chain {step : ℚ} (maxD : ℚ) (hs : 0 < step) (hc : IsCenti step) :
    List.Chain' (· < ·) (genMarkers step maxD) := by
  rw [genMarkers_eq_noRound maxD hc, genMarkersNoRound, if_pos hs]
  exact genMarkersNoRoundAux_chain step maxD hs _ step

theorem genMarkers_mem_centi {step : ℚ} (maxD : ℚ) (hc : IsCenti step) :
    ∀ y ∈ genMarkers step maxD, IsCenti y := by
  rw [genMarkers]
  by_cases h : 0 < step
  · rw [if_pos h]
    rw [genMarkersAux_eq_noRound step maxD hc _ step hc]
    exact genMarkersNoRoundAux_mem_centi step maxD hc _ step hc
  · rw [if_neg h]
    intro y hy
    cases hy

theorem genMarkersNoRound_three (s : ℚ) (hs : 0 < s) :
    genMarkersNoRound s (3 * s) = [s, 2 * s] := by
  rw [genMarkersNoRound, if_pos hs]
  have hdiv : (3 * s) / s = 3 := by
    field_simp
  rw [hdiv]
  have hceil : (Int.ceil (3 : ℚ)).toNat + 1 = 4 := by
    rw [show Int.ceil (3 : ℚ) = 3 by norm_num]
    decide
  rw [hceil]
  rw [genMarkersNoRoundAux, if_pos (by linarith : s < 3 * s)]
  have h2 : s + s = 2 * s := by ring
  rw [h2]
  rw [genMarkersNoRoundAux, if_pos (by linarith : 2 * s < 3 * s)]
  have h3 : 2 * s + s = 3 * s := by ring
  rw [h3]
  rw [genMarkersNoRoundAux, if_neg (by linarith : ¬(3 * s < 3 * s))]

/-! ## Bisect lemmas -/

theorem bisectLeftAux_spec (a : List ℚ) (x : ℚ)
    (hmono : ∀ i j, i ≤ j → j < a.length → a.getD i 0 ≤ a.getD j 0) :
    ∀ fuel lo hi, hi ≤ a.length → lo ≤ hi → hi - lo ≤ fuel →
      (∀ i < lo, a.getD i 0 < x) →
      (∀ i, hi ≤ i → i < a.length → x ≤ a.getD i 0) →
      lo ≤ bisectLeftAux a x fuel lo hi ∧ bisectLeftAux a x fuel lo hi ≤ hi ∧
      (∀ i < bisectLeftAux a x fuel lo hi, a.getD i 0 < x) ∧
      (∀ i, bisectLeftAux a x fuel lo hi ≤ i → i < a.length → x ≤ a.getD i 0) := by
  intro fuel
  induction fuel with
  | zero =>
    intro lo hi hhi hlohi hfuel hlo hhi2
    have heq : hi = lo := by omega
    subst heq
    exact ⟨le_refl _, le_refl _, hlo, hhi2⟩
  | succ n ih =>
    intro lo hi hhi hlohi hfuel hlo hhi2
    rw [bisectLeftAux]
    by_cases hlt : lo < hi
    · rw [if_pos hlt]
      by_cases hcmp : a.getD ((lo + hi) / 2) 0 < x
      · rw [if_pos hcmp]
        have hstep := ih ((lo + hi) / 2 + 1) hi hhi (by omega) (by omega)
          (fun i hi' => lt_of_le_of_lt (hmono i ((lo + hi) / 2) (by omega) (by omega)) hcmp)
          hhi2
        exact ⟨by omega, hstep.2.1, hstep.2.2.1, hstep.2.2.2⟩
      · rw [if_neg hcmp]
        have hstep := ih lo ((lo + hi) / 2) (by omega) (by omega) (by omega) hlo
          (fun i hge hilen => le_trans (not_lt.mp hcmp) (hmono ((lo + hi) / 2) i hge hilen))
        exact ⟨hstep.1, by omega, hstep.2.2.1, hstep.2.2.2⟩
    · rw [if_neg hlt]
      have heq : hi = lo := by omega
      subst heq
      exact ⟨le_refl _, le_refl _, hlo, hhi2⟩

theorem bisect_left_spec (a : List ℚ) (x : ℚ)
    (hmono : ∀ i j, i ≤ j → j < a.length → a.getD i 0 ≤ a.getD j 0) :
    bisect_left a x ≤ a.length ∧
    (∀ i < bisect_left a x, a.getD i 0 < x) ∧
    (∀ i, bisect_left a x ≤ i → i < a.length → x ≤ a.getD i 0) := by
  have h := bisectLeftAux_spec a x hmono a.length 0 a.length (le_refl _) (Nat.zero_le _)
    (by omega) (fun i hi => absurd hi (Nat.not_lt_zero i))
    (fun i hge hilen => absurd hilen (by omega))
  exact ⟨h.2.1, h.2.2.1, h.2.2.2⟩

theorem sorted_getD_mono {l : List ℚ} (h : List.Sorted (· ≤ ·) l) :
    ∀ i j, i ≤ j → j < l.length → l.getD i 0 ≤ l.getD j 0 := by
  intro i j hij hj
  rcases Nat.eq_or_lt_of_le hij with rfl | hlt
  · exact le_refl _
  · have hi : i < l.length := lt_trans hlt hj
    rw [List.getD_eq_getElem l 0 hi, List.getD_eq_getElem l 0 hj]
    exact List.pairwise_iff_getElem.mp h i j hi hj hlt

theorem mem_le_getLast {l : List ℚ} (hp : List.Pairwise (· < ·) l) {x lm : ℚ}
    (hx : x ∈ l) (hl : l.getLast? = some lm) : x ≤ lm := by
  induction l with
  | nil => cases hx
  | cons a as ih =>
    cases as with
    | nil =>
      simp at hx hl
      rw [hx, hl]
    | cons b bs =>
      rw [List.getLast?_cons_cons] at hl
      rcases List.mem_cons.mp hx with rfl | hx'
      · have hmem : lm ∈ b :: bs := List.mem_of_getLast?_eq_some hl
        exact le_of_lt ((List.pairwise_cons.mp hp).1 lm hmem)
      · exact ih (List.pairwise_cons.mp hp).2 hx' hl

/-! ## Configuration lemmas -/

theorem lookup_allowed_cases (u : String) (l : List ℚ)
    (h : ALLOWED_STEPS.lookup u = some l) :
    (u = "meters" ∧ l = [100, 200, 400, 600, 800, 1000, 1200, 1600, 2000, 3200, 5000, 10000]) ∨
    (u = "km" ∧ l = [1, 2, 5, 10, 20]) ∨
    (u = "mi" ∧ l = [1/4, 1/2, 1, 2, 3, 4, 5, 10, 131/10]) := by
  by_cases h1 : u = "meters"
  · subst h1
    rw [show ALLOWED_STEPS.lookup "meters" =
      some [100, 200, 400, 600, 800, 1000, 1200, 1600, 2000, 3200, 5000, 10000] from rfl] at h
    exact Or.inl ⟨rfl, (Option.some.inj h).symm⟩
  · by_cases h2 : u = "km"
    · subst h2
      rw [show ALLOWED_STEPS.lookup "km" = some [1, 2, 5, 10, 20] from rfl] at h
      exact Or.inr (Or.inl ⟨rfl, (Option.some.inj h).symm⟩)
    · by_cases h3 : u = "mi"
      · subst h3
        rw [show ALLOWED_STEPS.lookup "mi" =
          some [1/4, 1/2, 1, 2, 3, 4, 5, 10, 131/10] from rfl] at h
        exact Or.inr (Or.inr ⟨rfl, (Option.some.inj h).symm⟩)
      · rw [ALLOWED_STEPS] at h
        have e1 : (u == "meters") = false := beq_eq_false_iff_ne.mpr h1
        have e2 : (u == "km") = false := beq_eq_false_iff_ne.mpr h2
        have e3 : (u == "mi") = false := beq_eq_false_iff_ne.mpr h3
        simp only [List.lookup, e1, e2, e3] at h
        cases h

theorem isCenti_of_den {x : ℚ} (h : (x * 100).den = 1) : IsCenti x :=
  ⟨(x * 100).num, ((Rat.den_eq_one_iff _).mp h).symm⟩

theorem step_props (u : String) (s : ℚ) (hs : s ∈ allowedFor u) :
    0 < s ∧ IsCenti s := by
  rw [allowedFor] at hs
  cases hl : ALLOWED_STEPS.lookup u with
  | none => rw [hl] at hs; cases hs
  | some l =>
    rw [hl] at hs
    simp only [Option.getD_some] at hs
    rcases lookup_allowed_cases u l hl with ⟨_, rfl⟩ | ⟨_, rfl⟩ | ⟨_, rfl⟩ <;>
      fin_cases hs <;>
      exact ⟨by norm_num, isCenti_of_den (by norm_num)⟩

theorem convFor_cases (u : String) :
    convFor u = 1 ∨ convFor u = 1000 ∨ convFor u = 160934/100 := by
  by_cases h1 : u = "meters"
  · subst h1; left; rfl
  · by_cases h2 : u = "km"
    · subst h2; right; left; rfl
    · by_cases h3 : u = "mi"
      · subst h3; right; right; rfl
      · rw [convFor, UNIT_CONVERSIONS]
        have e1 : (u == "meters") = false := beq_eq_false_iff_ne.mpr h1
        have e2 : (u == "km") = false := beq_eq_false_iff_ne.mpr h2
        have e3 : (u == "mi") = false := beq_eq_false_iff_ne.mpr h3
        simp only [List.lookup, e1, e2, e3]
        left
        rfl

theorem convFor_pos (u : String) : 0 < convFor u := by
  rcases convFor_cases u with h | h | h <;> rw [h] <;> norm_num

/-! ## compute_splits structure lemmas -/

theorem compute_splits_valid (df : GpsFrame) (u : String) (s : ℚ) (al : List ℚ)
    (hl : ALLOWED_STEPS.lookup u = some al) (hs : s ∈ al) :
    compute_splits df u s =
      ({ df with distance_unit := some (dcolOf df u) },
        match (dcolOf df u).getLast? with
        | none => .error (.indexError "single positional indexer is out-of-bounds")
        | some maxD =>
          assembleRecords (withFinal (genMarkers s maxD) (round2 maxD)
            ((elapsedColOf df).getLast?.getD 0)
            (splitRowsOfMarkers (elapsedColOf df) (dcolOf df u) (genMarkers s maxD)))) := by
  rw [compute_splits]
  simp only [hl, if_pos hs]
  cases hmax : (dcolOf df u).getLast? with
  | none => rfl
  | some maxD => rfl

theorem compute_splits_ok_structure (df : GpsFrame) (u : String) (s : ℚ)
    (r : List SplitRecord) (h : (compute_splits df u s).2 = .ok r) :
    ∃ al maxD, ALLOWED_STEPS.lookup u = some al ∧ s ∈ al ∧
      (dcolOf df u).getLast? = some maxD ∧
      assembleRecords (withFinal (genMarkers s maxD) (round2 maxD)
        ((elapsedColOf df).getLast?.getD 0)
        (splitRowsOfMarkers (elapsedColOf df) (dcolOf df u) (genMarkers s maxD))) = .ok r := by
  cases hl : ALLOWED_STEPS.lookup u with
  | none =>
    rw [compute_splits] at h
    simp only [hl] at h
    cases h
  | some al =>
    by_cases hs : s ∈ al
    · rw [compute_splits_valid df u s al hl hs] at h
      cases hmax : (dcolOf df u).getLast? with
      | none => simp only [hmax] at h; cases h
      | some maxD =>
        simp only [hmax] at h
        exact ⟨al, maxD, rfl, hs, rfl, h⟩

    · rw [compute_splits] at h
      simp only [hl, if_neg hs] at h
      cases h

theorem map_marker_splitRows_sublist (e dcol ms : List ℚ) :
    ((splitRowsOfMarkers e dcol ms).map (·.marker)).Sublist ms := by
  induction ms with
  | nil => simp [splitRowsOfMarkers]
  | cons m ms ih =>
    rw [splitRowsOfMarkers, List.filterMap_cons]
    simp only
    by_cases hc : bisect_left dcol m = 0 ∨ dcol.length ≤ bisect_left dcol m
    · rw [if_pos hc]
      exact List.Sublist.cons m ih
    · rw [if_neg hc]
      rw [List.map_cons]
      exact List.Sublist.cons₂ m ih

theorem withFinal_true {markers : List ℚ} {fd : ℚ} (ft : ℚ) (data : List SplitRow)
    (h : appendFinalB markers fd = true) :
    withFinal markers fd ft data = data ++ [{ marker := fd, elapsed_time_sec := ft }] := by
  rw [withFinal, if_pos h]

theorem withFinal_false {markers : List ℚ} {fd : ℚ} (ft : ℚ) (data : List SplitRow)
    (h : appendFinalB markers fd = false) :
    withFinal markers fd ft data = data := by
  rw [withFinal, h]
  rfl

theorem splitRowsSpec_eq_of_centi (e dcol : List ℚ) (ms : List ℚ)
    (h : ∀ m ∈ ms, round2 m = m) :
    splitRowsOfMarkersSpec e dcol ms = splitRowsOfMarkers e dcol ms := by
  induction ms with
  | nil => rfl
  | cons m ms ih =>
    rw [splitRowsOfMarkersSpec, splitRowsOfMarkers, List.filterMap_cons, List.filterMap_cons]
    simp only
    by_cases hc : bisect_left dcol m = 0 ∨ dcol.length ≤ bisect_left dcol m
    · rw [if_pos hc, if_pos hc]
      rw [splitRowsOfMarkersSpec, splitRowsOfMarkers] at ih
      exact ih (fun x hx => h x (List.mem_cons_of_mem m hx))
    · rw [if_neg hc, if_neg hc, h m (List.mem_cons_self m ms)]
      rw [splitRowsOfMarkersSpec, splitRowsOfMarkers] at ih
      rw [ih (fun x hx => h x (List.mem_cons_of_mem m hx))]

/-! ## Claim theorems -/

/-- C5: `compute_splits` raises the configuration `ValueError` (the spec's
ConfigError) whenever the unit is unsupported, or the unit is supported
but the step is outside its allow-list; in both cases the error is raised
before any computation on the track (the same error is returned for every
frame, and the frame comes back unmutated).  With a valid unit and step,
the only `ValueError` the function can ever produce is the NaN-to-int
conversion error, so it never raises a configuration error. -/
theorem computeSplits_config_validation :
    (∀ (df : GpsFrame) (u : String) (s : ℚ), ALLOWED_STEPS.lookup u = none →
      compute_splits df u s =
        (df, .error (.valueError ("Invalid unit " ++ u ++ ". Must be one of [meters, km, mi].")))) ∧
    (∀ (df : GpsFrame) (u : String) (s : ℚ) (al : List ℚ),
      ALLOWED_STEPS.lookup u = some al → s ∉ al →
      compute_splits df u s =
        (df, .error (.valueError ("Step value not allowed for unit " ++ u ++ ".")))) ∧
    (∀ (df : GpsFrame) (u : String) (s : ℚ) (al : List ℚ) (m : String),
      ALLOWED_STEPS.lookup u = some al → s ∈ al →
      (compute_splits df u s).2 = .error (.valueError m) →
      m = "cannot convert float NaN to integer") := by
  refine ⟨?_, ?_, ?_⟩
  · intro df u s h
    rw [compute_splits]
    simp only [h]
  · intro df u s al hl hs
    rw [compute_splits]
    simp only [hl, if_neg hs]
  · intro df u s al m hl hs herr
    rw [compute_splits_valid df u s al hl hs] at herr
    cases hmax : (dcolOf df u).getLast? with
    | none =>
      simp only [hmax] at herr
      cases herr
    | some maxD =>
      simp only [hmax] at herr
      rcases assembleRecords_error _ _ herr with h | h | h
      · cases h
      · cases h
      · exact (PyError.valueError.inj h)

/-- C6: the source's docstring (and the spec) promise that every
0.25-increment step up to 13.1 is accepted for the `mi` unit, but the
`ALLOWED_STEPS` constant omits 0.75 (and most other quarter steps), so
`compute_splits` rejects the documented step 0.75 with the configuration
`ValueError`. -/
theorem computeSplits_mi_rejects_step_three_quarters (df : GpsFrame) :
    compute_splits df "mi" (3/4) =
      (df, .error (.valueError ("Step value not allowed for unit " ++ "mi" ++ "."))) := by
  have hmem : (3/4 : ℚ) ∉ ([1/4, 1/2, 1, 2, 3, 4, 5, 10, 131/10] : List ℚ) := by
    intro h
    simp only [List.mem_cons, List.not_mem_nil, or_false] at h
    rcases h with h | h | h | h | h | h | h | h | h <;> norm_num at h
  rw [compute_splits]
  simp only [show ALLOWED_STEPS.lookup "mi" =
    some [1/4, 1/2, 1, 2, 3, 4, 5, 10, 131/10] from rfl]
  rw [if_neg hmem]

/-- C10: with a valid unit and step, `compute_splits` writes the converted
distance column in place onto the caller's frame: the frame it hands back
is the input frame with `distance_unit` assigned to
`cumulative_meters / UNIT_CONVERSIONS[unit]` and the rows (all other
columns) untouched; in particular a frame that does not yet carry the
column — every loader output — is not left unchanged by the call. -/
theorem computeSplits_mutates_frame (df : GpsFrame) (u : String) (s : ℚ) (al : List ℚ)
    (hl : ALLOWED_STEPS.lookup u = some al) (hs : s ∈ al) :
    (compute_splits df u s).1 = { df with distance_unit := some (dcolOf df u) } ∧
    (df.distance_unit = none → (compute_splits df u s).1 ≠ df) := by
  have h1 : (compute_splits df u s).1 = { df with distance_unit := some (dcolOf df u) } := by
    rw [compute_splits_valid df u s al hl hs]
  refine ⟨h1, fun hnone heq => ?_⟩
  rw [h1] at heq
  have hdu := congrArg GpsFrame.distance_unit heq
  simp [hnone] at hdu

/-- C4: rounding placement.  Under exact decimal arithmetic the source —
which rounds each marker as it is appended and searches with the stored
value — computes exactly what the spec words as: candidate markers
`step, 2*step, ...` used unrounded for the bisect search and for the
final-record comparison, with rounding to 2 decimals applied only to the
stored distance marker.  The two pipelines agree on every frame and every
configuration, because every allow-listed step is a multiple of 0.01 and
rounding is then the identity on every generated marker. -/
theorem computeSplits_rounding_refinement (df : GpsFrame) (u : String) (s : ℚ) :
    compute_splits_specRounding df u s = compute_splits df u s := by
  rw [compute_splits, compute_splits_specRounding]
  cases hl : ALLOWED_STEPS.lookup u with
  | none => rfl
  | some al =>
    simp only
    by_cases hs : s ∈ al
    · rw [if_pos hs, if_pos hs]
      have hsf : s ∈ allowedFor u := by rw [allowedFor, hl]; simpa using hs
      obtain ⟨hpos, hcenti⟩ := step_props u s hsf
      cases hmax : (dcolOf df u).getLast? with
      | none => rfl
      | some maxD =>
        simp only
        have hm : genMarkersNoRound s maxD = genMarkers s maxD :=
          (genMarkers_eq_noRound maxD hcenti).symm
        rw [hm]
        rw [splitRowsSpec_eq_of_centi (elapsedColOf df) (dcolOf df u) (genMarkers s maxD)
          (fun m hmem => round2_eq_self (genMarkers_mem_centi maxD hcenti m hmem))]
    · rw [if_neg hs, if_neg hs]

/-- C3: telescoping durations.  On every non-empty record list that
`compute_splits` returns, the sum of the `split_time_sec` column equals
the last record's `elapsed_time_sec` exactly: the first duration is the
first elapsed time and each later duration is the difference from the
previous record, so the sum telescopes (exact rational arithmetic). -/
theorem computeSplits_durations_telescope (df : GpsFrame) (u : String) (s : ℚ)
    (r : List SplitRecord) (rec : SplitRecord)
    (hok : (compute_splits df u s).2 = .ok r) (hlast : r.getLast? = some rec) :
    (r.map (·.split_time_sec)).sum = rec.elapsed_time_sec := by
  obtain ⟨al, maxD, hl, hs, hmax, hass⟩ := compute_splits_ok_structure df u s r hok
  obtain ⟨hne, hlen, hmk, hel, htime, hdist, hdz⟩ := assembleRecords_ok _ _ hass
  rw [htime, sum_diffWithFirst, ← hel, List.getLast?_map, hlast]
  rfl

/-- C7 (amended): a record with zero `split_distance` never survives to a
returned record list — whenever `compute_splits` succeeds, every record
has a non-zero split distance, because a zero distance would have produced
a non-finite pace and the formatting `int()` would have raised instead of
returning. -/
theorem computeSplits_ok_no_zero_split_distance (df : GpsFrame) (u : String) (s : ℚ)
    (r : List SplitRecord) (hok : (compute_splits df u s).2 = .ok r) :
    ∀ rec ∈ r, rec.split_distance ≠ 0 := by
  obtain ⟨al, maxD, hl, hs, hmax, hass⟩ := compute_splits_ok_structure df u s r hok
  obtain ⟨hne, hlen, hmk, hel, htime, hdist, hdz⟩ := assembleRecords_ok _ _ hass
  intro rec hrec hzero
  have hmem : rec.split_distance ∈ r.map (·.split_distance) :=
    List.mem_map_of_mem _ hrec
  rw [hdist] at hmem
  exact hdz _ hmem hzero

/-- C7 (counterexample): on a 4 mm track with meters/100 the only record
is the final one at distance 0.00 with elapsed time 60 s; pandas division
by the zero split distance produces `inf`, and `compute_splits` then
crashes with an unhandled `OverflowError` from `int(inf)` inside the pace
formatting — it neither fails with a structured ComputationError nor
yields a sentinel pace value. -/
theorem computeSplits_zero_distance_crashes :
    (compute_splits frameZero "meters" 100).2 =
      .error (.overflowError "cannot convert float infinity to integer") := by
  with_unfolding_all rfl

/-- C1: the final record.  On success with total converted distance
`maxD`, `compute_splits` appends exactly one final record — holding the
rounded total distance and the last point's elapsed time — exactly when
no markers were generated or the rounded total strictly exceeds the last
generated marker (the `appendFinalB` condition of line 145); otherwise
the records are exactly the marker records and no final record exists. -/
theorem computeSplits_final_record_iff (df : GpsFrame) (u : String) (s : ℚ)
    (r : List SplitRecord) (maxD : ℚ)
    (hok : (compute_splits df u s).2 = .ok r)
    (hmax : (dcolOf df u).getLast? = some maxD) :
    (appendFinalB (genMarkers s maxD) (round2 maxD) = true →
      r.length =
        (splitRowsOfMarkers (elapsedColOf df) (dcolOf df u) (genMarkers s maxD)).length + 1 ∧
      r.getLast?.map (·.marker) = some (round2 maxD) ∧
      r.getLast?.map (·.elapsed_time_sec) = some ((elapsedColOf df).getLast?.getD 0)) ∧
    (appendFinalB (genMarkers s maxD) (round2 maxD) = false →
      r.length =
        (splitRowsOfMarkers (elapsedColOf df) (dcolOf df u) (genMarkers s maxD)).length ∧
      r.map (·.marker) =
        (splitRowsOfMarkers (elapsedColOf df) (dcolOf df u) (genMarkers s maxD)).map (·.marker)) := by
  obtain ⟨al, maxD', hl, hs, hmax', hass⟩ := compute_splits_ok_structure df u s r hok
  rw [hmax] at hmax'
  injection hmax' with hmd
  subst hmd
  obtain ⟨hne, hlen, hmk, hel, htime, hdist, hdz⟩ := assembleRecords_ok _ _ hass
  constructor
  · intro hb
    rw [withFinal_true _ _ hb] at hlen hmk hel
    refine ⟨by simpa using hlen, ?_, ?_⟩
    · have h := congrArg List.getLast? hmk
      rw [List.getLast?_map, List.getLast?_map, List.getLast?_concat] at h
      exact h
    · have h := congrArg List.getLast? hel
      rw [List.getLast?_map, List.getLast?_map, List.getLast?_concat] at h
      exact h
  · intro hb
    rw [withFinal_false _ _ hb] at hlen hmk
    exact ⟨hlen, hmk⟩

/-- C2: ordering.  For a non-empty frame with non-decreasing cumulative
distances and a valid (unit, step) pair, the distance markers of the
records `compute_splits` returns are strictly increasing, and the final
(possibly partial) record, when the appending condition holds, sits last
carrying the rounded total distance. -/
theorem computeSplits_markers_strictly_increasing (df : GpsFrame) (u : String) (s : ℚ)
    (r : List SplitRecord) (maxD : ℚ)
    (hrows : df.rows ≠ [])
    (hsorted : List.Sorted (· ≤ ·) (cumColOf df))
    (hstep : s ∈ allowedFor u)
    (hok : (compute_splits df u s).2 = .ok r)
    (hmax : (dcolOf df u).getLast? = some maxD) :
    List.Pairwise (· < ·) (r.map (·.marker)) ∧
    (appendFinalB (genMarkers s maxD) (round2 maxD) = true →
      r.getLast?.map (·.marker) = some (round2 maxD)) := by
  obtain ⟨hpos, hcenti⟩ := step_props u s hstep
  obtain ⟨al, maxD', hl, hs, hmax', hass⟩ := compute_splits_ok_structure df u s r hok
  rw [hmax] at hmax'
  injection hmax' with hmd
  subst hmd
  obtain ⟨hne, hlen, hmk, hel, htime, hdist, hdz⟩ := assembleRecords_ok _ _ hass
  have hmarkers : List.Pairwise (· < ·) (genMarkers s maxD) :=
    List.chain'_iff_pairwise.mp (genMarkers_chain maxD hpos hcenti)
  have hsub := map_marker_splitRows_sublist (elapsedColOf df) (dcolOf df u) (genMarkers s maxD)
  have hkept : List.Pairwise (· < ·)
      ((splitRowsOfMarkers (elapsedColOf df) (dcolOf df u) (genMarkers s maxD)).map (·.marker)) :=
    hmarkers.sublist hsub
  constructor
  · cases hb : appendFinalB (genMarkers s maxD) (round2 maxD) with
    | false =>
      rw [withFinal_false _ _ hb] at hmk
      rw [hmk]
      exact hkept
    | true =>
      rw [withFinal_true _ _ hb] at hmk
      rw [hmk, List.map_append]
      rw [List.pairwise_append]
      refine ⟨hkept, List.pairwise_singleton _ _, ?_⟩
      intro x hx y hy
      simp only [List.map_cons, List.map_nil, List.mem_cons, List.not_mem_nil, or_false] at hy
      subst hy
      have hxm : x ∈ genMarkers s maxD := hsub.subset hx
      cases hml : (genMarkers s maxD).getLast? with
      | none =>
        rw [List.getLast?_eq_none_iff] at hml
        rw [hml] at hxm
        cases hxm
      | some lm =>
        have hxle : x ≤ lm := mem_le_getLast hmarkers hxm hml
        have hlt : lm < round2 maxD := by
          rw [appendFinalB, hml] at hb
          exact of_decide_eq_true hb
        exact lt_of_le_of_lt hxle hlt
  · intro hb
    rw [withFinal_true _ _ hb] at hmk
    have h := congrArg List.getLast? hmk
    rw [List.getLast?_map, List.getLast?_map, List.getLast?_concat] at h
    exact h

theorem head?_some_getD {l : List ℚ} {x : ℚ} (h : l.head? = some x) : l.getD 0 0 = x := by
  cases l with
  | nil => cases h
  | cons a t => exact Option.some.inj h

theorem getLast?_some_getD {l : List ℚ} {x : ℚ} (h : l.getLast? = some x) :
    l.getD (l.length - 1) 0 = x := by
  rw [List.getLast?_eq_getElem?] at h
  rw [List.getD_eq_getElem?_getD, h]
  rfl

/-- C8: an exact multiple of the step.  For every annotated track (first
converted distance 0, non-decreasing distances) whose total converted
distance is exactly `3 * step`, a valid (unit, step) configuration makes
`compute_splits` succeed with exactly three records: the markers `step`
and `2*step` and the final record at `3*step` — no fourth leftover
record. -/
theorem computeSplits_exact_multiple_three_records (df : GpsFrame) (u : String) (s : ℚ)
    (hfirst : (cumColOf df).head? = some 0)
    (hsorted : List.Sorted (· ≤ ·) (cumColOf df))
    (hstep : s ∈ allowedFor u)
    (htotal : (cumColOf df).getLast? = some (3 * s * convFor u)) :
    ∃ r, (compute_splits df u s).2 = .ok r ∧ r.map (·.marker) = [s, 2*s, 3*s] := by
  obtain ⟨hpos, hcenti⟩ := step_props u s hstep
  have hconv : 0 < convFor u := convFor_pos u
  have hl : ∃ al, ALLOWED_STEPS.lookup u = some al ∧ s ∈ al := by
    rw [allowedFor] at hstep
    cases hlk : ALLOWED_STEPS.lookup u with
    | none => rw [hlk] at hstep; cases hstep
    | some al => rw [hlk] at hstep; exact ⟨al, rfl, by simpa using hstep⟩
  obtain ⟨al, hlk, hs⟩ := hl
  have hdcol : dcolOf df u = (cumColOf df).map (fun c => c / convFor u) := by
    rw [dcolOf, cumColOf, List.map_map]
    rfl
  have hdfirst : (dcolOf df u).head? = some 0 := by
    rw [hdcol, List.head?_map, hfirst]
    simp
  have hdsorted : List.Sorted (· ≤ ·) (dcolOf df u) := by
    rw [hdcol]
    exact hsorted.map _ (fun a b hab => (div_le_div_iff_of_pos_right hconv).mpr hab)
  have hdlast : (dcolOf df u).getLast? = some (3 * s) := by
    rw [hdcol, List.getLast?_map, htotal]
    have : 3 * s * convFor u / convFor u = 3 * s := by
      field_simp
    simp [this]
  have hmk : genMarkers s (3 * s) = [s, 2 * s] := by
    rw [genMarkers_eq_noRound _ hcenti, genMarkersNoRound_three s hpos]
  have hlen_pos : (dcolOf df u) ≠ [] := by
    intro h
    rw [h] at hdlast
    cases hdlast
  have hget0 : (dcolOf df u).getD 0 0 = 0 := head?_some_getD hdfirst
  have hgetlast : (dcolOf df u).getD ((dcolOf df u).length - 1) 0 = 3 * s :=
    getLast?_some_getD hdlast
  have hmono := sorted_getD_mono hdsorted
  have hlpos : 0 < (dcolOf df u).length := List.length_pos.mpr hlen_pos
  have hkeep : ∀ m : ℚ, 0 < m → m ≤ 3 * s →
      ¬(bisect_left (dcolOf df u) m = 0 ∨ (dcolOf df u).length ≤ bisect_left (dcolOf df u) m) := by
    intro m hm0 hm3
    obtain ⟨hle, hlt', hge⟩ := bisect_left_spec (dcolOf df u) m hmono
    rw [not_or]
    constructor
    · intro h0
      have hx := hge 0 (by omega) hlpos
      rw [hget0] at hx
      linarith
    · intro hgelen
      have heq : bisect_left (dcolOf df u) m = (dcolOf df u).length := le_antisymm hle hgelen
      have hx := hlt' ((dcolOf df u).length - 1) (by omega)
      rw [hgetlast] at hx
      linarith
  have hdata : splitRowsOfMarkers (elapsedColOf df) (dcolOf df u) [s, 2*s] =
      [{ marker := s,
         elapsed_time_sec := (elapsedColOf df).getD (bisect_left (dcolOf df u) s) 0 },
       { marker := 2*s,
         elapsed_time_sec := (elapsedColOf df).getD (bisect_left (dcolOf df u) (2*s)) 0 }] := by
    rw [splitRowsOfMarkers, List.filterMap_cons, List.filterMap_cons, List.filterMap_nil]
    simp only
    rw [if_neg (hkeep s hpos (by linarith)), if_neg (hkeep (2*s) (by linarith) (by linarith))]
  have hcenti3 : IsCenti (3 * s) := by
    rw [show (3 : ℚ) * s = s + s + s by ring]
    exact (hcenti.add hcenti).add hcenti
  have hround3 : round2 (3 * s) = 3 * s := round2_eq_self hcenti3
  have hfinal : appendFinalB [s, 2*s] (round2 (3*s)) = true := by
    rw [hround3, appendFinalB]
    rw [show ([s, 2*s] : List ℚ).getLast? = some (2*s) from rfl]
    exact decide_eq_true (by linarith)
  have hmmap : (withFinal [s, 2*s] (round2 (3*s)) ((elapsedColOf df).getLast?.getD 0)
      (splitRowsOfMarkers (elapsedColOf df) (dcolOf df u) [s, 2*s])).map (·.marker) =
      [s, 2*s, 3*s] := by
    rw [withFinal_true _ _ hfinal, hdata, List.map_append]
    simp [hround3]
  have hdists : diffWithFirst ((withFinal [s, 2*s] (round2 (3*s))
      ((elapsedColOf df).getLast?.getD 0)
      (splitRowsOfMarkers (elapsedColOf df) (dcolOf df u) [s, 2*s])).map (·.marker)) =
      [s, s, s] := by
    rw [hmmap]
    show [s, 2*s - s, 3*s - (2*s)] = [s, s, s]
    have e1 : 2*s - s = s := by ring
    have e2 : 3*s - (2*s) = s := by ring
    rw [e1, e2]
  obtain ⟨r, hr⟩ := assembleRecords_ok_of
    (withFinal [s, 2*s] (round2 (3*s)) ((elapsedColOf df).getLast?.getD 0)
      (splitRowsOfMarkers (elapsedColOf df) (dcolOf df u) [s, 2*s]))
    (by rw [withFinal_true _ _ hfinal]; simp)
    (by
      rw [hdists]
      intro d hd
      simp only [List.mem_cons, List.not_mem_nil, or_false] at hd
      rcases hd with rfl | rfl | rfl <;> exact ne_of_gt hpos)
  refine ⟨r, ?_, ?_⟩
  · rw [compute_splits_valid df u s al hlk hs]
    simp only [hdlast]
    rw [hmk]
    exact hr
  · obtain ⟨_, _, hmkmap, _, _, _, _⟩ := assembleRecords_ok _ r hr
    rw [hmkmap, hmmap]

/-- C9 (amended): `prepare_gpx_dataframe` on a decodable input with zero
points builds an empty DataFrame with no columns, so `df['time']` raises
an incidental pandas `KeyError` — not the structured ParseError the spec
postulates (the source defines no such error anywhere) — and no partial
annotated track is returned. -/
theorem prepare_zero_points_raises_keyError (geo : ℚ × ℚ → ℚ × ℚ → ℚ) (gpx : Gpx)
    (h : flattenPoints gpx = []) :
    prepare_gpx_dataframe geo gpx = .error (.keyError "time") := by
  rw [prepare_gpx_dataframe]
  simp only [h]

/-- C9 (counterexample): on the concrete zero-point GPX document the
loader fails with `KeyError "time"` and does not fail with any
`parseError` — refuting that the zero-point failure is a structured
ParseError rather than an incidental exception. -/
theorem prepare_zero_points_not_parseError :
    prepare_gpx_dataframe geoZero gpxEmpty = .error (.keyError "time") ∧
    ¬∃ m, prepare_gpx_dataframe geoZero gpxEmpty = .error (.parseError m) := by
  have h : prepare_gpx_dataframe geoZero gpxEmpty = .error (.keyError "time") := by
    with_unfolding_all rfl
  refine ⟨h, ?_⟩
  rintro ⟨m, hm⟩
  rw [h] at hm
  cases hm

/-- C9 witness: the amended theorem applied to the concrete zero-point
GPX document. -/
theorem prepare_zero_points_raises_keyError_witness :
    prepare_gpx_dataframe geoZero gpxEmpty = .error (.keyError "time") :=
  prepare_zero_points_raises_keyError geoZero gpxEmpty (by with_unfolding_all rfl)

/-- C1 witness: the final-record theorem applied to the 1 km track with
meters/400 (markers 400 and 800, rounded total 1000). -/
theorem computeSplits_final_record_iff_witness :
    (appendFinalB (genMarkers 400 1000) (round2 1000) = true →
      frameARecords.length =
        (splitRowsOfMarkers (elapsedColOf frameA) (dcolOf frameA "meters")
          (genMarkers 400 1000)).length + 1 ∧
      frameARecords.getLast?.map (·.marker) = some (round2 1000) ∧
      frameARecords.getLast?.map (·.elapsed_time_sec) =
        some ((elapsedColOf frameA).getLast?.getD 0)) ∧
    (appendFinalB (genMarkers 400 1000) (round2 1000) = false →
      frameARecords.length =
        (splitRowsOfMarkers (elapsedColOf frameA) (dcolOf frameA "meters")
          (genMarkers 400 1000)).length ∧
      frameARecords.map (·.marker) =
        (splitRowsOfMarkers (elapsedColOf frameA) (dcolOf frameA "meters")
          (genMarkers 400 1000)).map (·.marker)) :=
  computeSplits_final_record_iff frameA "meters" 400 frameARecords 1000
    (by with_unfolding_all rfl) (by with_unfolding_all rfl)

/-- C2 witness: the ordering theorem applied to the 1 km track with
meters/400. -/
theorem computeSplits_markers_strictly_increasing_witness :
    List.Pairwise (· < ·) (frameARecords.map (·.marker)) ∧
    (appendFinalB (genMarkers 400 1000) (round2 1000) = true →
      frameARecords.getLast?.map (·.marker) = some (round2 1000)) :=
  computeSplits_markers_strictly_increasing frameA "meters" 400 frameARecords 1000
    (by with_unfolding_all exact fun h => List.noConfusion h)
    (by
      rw [show cumColOf frameA = [0, 500, 1000] from by with_unfolding_all rfl]
      norm_num [List.sorted_cons])
    (by
      rw [show allowedFor "meters" =
        [100, 200, 400, 600, 800, 1000, 1200, 1600, 2000, 3200, 5000, 10000] from rfl]
      norm_num [List.mem_cons])
    (by with_unfolding_all rfl) (by with_unfolding_all rfl)

/-- C3 witness: the telescoping theorem applied to the 1 km track with
meters/400. -/
theorem computeSplits_durations_telescope_witness :
    (frameARecords.map (·.split_time_sec)).sum =
      (frameARecords.getD 2 defaultRecord).elapsed_time_sec :=
  computeSplits_durations_telescope frameA "meters" 400 frameARecords
    (frameARecords.getD 2 defaultRecord)
    (by with_unfolding_all rfl) (by with_unfolding_all rfl)

/-- C5 witness: the validation theorem applied to the concrete unsupported
unit "furlong", the unsupported km step 3, and — for the valid-config
part — the degenerate NaN input whose only `ValueError` is the
NaN-conversion one. -/
theorem computeSplits_config_validation_witness :
    compute_splits frameA "furlong" 1 =
      (frameA, .error (.valueError ("Invalid unit " ++ "furlong" ++
        ". Must be one of [meters, km, mi]."))) ∧
    compute_splits frameA "km" 3 =
      (frameA, .error (.valueError ("Step value not allowed for unit " ++ "km" ++ "."))) ∧
    "cannot convert float NaN to integer" = "cannot convert float NaN to integer" :=
  ⟨computeSplits_config_validation.1 frameA "furlong" 1 rfl,
   computeSplits_config_validation.2.1 frameA "km" 3 [1, 2, 5, 10, 20] rfl
     (by norm_num [List.mem_cons]),
   computeSplits_config_validation.2.2 frameZeroNan "meters" 100
     [100, 200, 400, 600, 800, 1000, 1200, 1600, 2000, 3200, 5000, 10000]
     "cannot convert float NaN to integer" rfl
     (by norm_num [List.mem_cons]) (by with_unfolding_all rfl)⟩

/-- C7 witness: the amended no-zero-distance theorem applied to the first
record of the 1 km track with meters/400. -/
theorem computeSplits_ok_no_zero_split_distance_witness :
    (frameARecords.getD 0 defaultRecord).split_distance ≠ 0 :=
  computeSplits_ok_no_zero_split_distance frameA "meters" 400 frameARecords
    (by with_unfolding_all rfl) (frameARecords.getD 0 defaultRecord)
    (by with_unfolding_all exact List.mem_cons_self _ _)

/-- C8 witness: the exact-multiple theorem applied to the 3 km track with
km/1. -/
theorem computeSplits_exact_multiple_three_records_witness :
    ∃ r, (compute_splits frameThree "km" 1).2 = .ok r ∧
      r.map (·.marker) = [1, 2*1, 3*1] :=
  computeSplits_exact_multiple_three_records frameThree "km" 1
    (by with_unfolding_all rfl)
    (by
      rw [show cumColOf frameThree = [0, 1500, 3000] from by with_unfolding_all rfl]
      norm_num [List.sorted_cons])
    (by
      rw [show allowedFor "km" = [1, 2, 5, 10, 20] from rfl]
      norm_num [List.mem_cons])
    (by with_unfolding_all rfl)

/-- C10 witness: the frame-mutation theorem applied to the 1 km track with
meters/400 (a loader-style frame with no distance_unit column). -/
theorem computeSplits_mutates_frame_witness :
    (compute_splits frameA "meters" 400).1 =
      { frameA with distance_unit := some (dcolOf frameA "meters") } ∧
    (frameA.distance_unit = none → (compute_splits frameA "meters" 400).1 ≠ frameA) :=
  computeSplits_mutates_frame frameA "meters" 400
    [100, 200, 400, 600, 800, 1000, 1200, 1600, 2000, 3200, 5000, 10000] rfl
    (by norm_num [List.mem_cons])

end SplitCalculator
